import Mathlib

/-!
Verification development for the cgi-rs repository: a shallow embedding of
the CGI gateway core (environment builder, header parser, process stream and
concurrency limiter) together with theorems settling the specification
claims.  Machine integers are modelled as `Nat` with explicit bounds where
the source uses `u16`/`u32`; raw header bytes are `List Nat`; fallible
operations return `Option`.
-/

/-- Raw header value bytes (Rust `HeaderValue` holds arbitrary bytes). -/
abbrev ByteStr := List Nat

/-- ASCII bytes of a Lean string literal (used to write concrete byte values). -/
def strBytes (s : String) : ByteStr := s.data.map Char.toNat

/-- A byte accepted by `HeaderValue::to_str` (visible ASCII or tab),
mirroring the `http` crate's `is_visible_ascii`. -/
def visibleByte (b : Nat) : Bool := b == 9 || (32 ≤ b && b < 127)

/-- Embedding of `HeaderValue::to_str`: succeeds exactly when every byte is
visible ASCII (or tab), returning the decoded string. -/
def toAsciiStr (v : ByteStr) : Option String :=
  if v.all visibleByte then some (String.mk (v.map Char.ofNat)) else none

/-- Accumulator for decimal digit parsing, mirroring Rust's digit loop in
`u16::from_str` / `u32::from_str` (extensionally: value of the digit list). -/
def digitsValAux : List Char → Nat → Option Nat
  | [], acc => some acc
  | c :: rest, acc =>
      if c.isDigit then digitsValAux rest (acc * 10 + (c.toNat - 48)) else none

/-- Embedding of Rust `str::parse::<uN>()` for an unsigned type whose
exclusive bound is `bound` (65536 for `u16`, 4294967296 for `u32`): an
optional leading `+`, then one or more ASCII digits, value below the bound. -/
def parseRustUnsigned (bound : Nat) (s : String) : Option Nat :=
  match s.data with
  | [] => none
  | c :: rest =>
      let ds := if c = '+' then rest else c :: rest
      match ds with
      | [] => none
      | _ => (digitsValAux ds 0).bind (fun n => if n < bound then some n else none)

/-- Modelled from the spec's words only (claim side): parsing a string as an
arbitrary-size non-negative decimal integer, with no width bound. -/
def specParseNonNegInt (s : String) : Option Nat :=
  match s.data with
  | [] => none
  | c :: rest =>
      let ds := if c = '+' then rest else c :: rest
      match ds with
      | [] => none
      | _ => digitsValAux ds 0

theorem digitsValAux_isDigit {l : List Char} {a n : Nat}
    (h : digitsValAux l a = some n) : ∀ c ∈ l, c.isDigit = true := by
  induction l generalizing a with
  | nil => intro c hc; cases hc
  | cons c rest ih =>
      intro d hd
      by_cases hc : c.isDigit = true
      · rcases List.mem_cons.mp hd with rfl | hd'
        · exact hc
        · exact ih (by simpa [digitsValAux, hc] using h) d hd'
      · simp [digitsValAux, hc] at h

/-- Bounded Rust parsing is unbounded decimal parsing followed by the bound
check. -/
theorem parseRustUnsigned_eq_spec (bound : Nat) (s : String) :
    parseRustUnsigned bound s =
      (specParseNonNegInt s).bind (fun n => if n < bound then some n else none) := by
  unfold parseRustUnsigned specParseNonNegInt
  cases s.data with
  | nil => rfl
  | cons c rest =>
      by_cases hc : c = '+'
      · cases rest <;> simp [hc]
      · cases rest <;> simp [hc]

/-- Rust `str::split` on a one-character pattern: the pieces between
occurrences of the separator, empty pieces included (`"".split` yields one
empty piece). -/
def splitAllChar (sep : Char) : List Char → List (List Char)
  | [] => [[]]
  | c :: rest =>
      if c = sep then [] :: splitAllChar sep rest
      else
        match splitAllChar sep rest with
        | h :: t => (c :: h) :: t
        | [] => [[c]]

/-- Rust `str::split_once` on a one-character pattern: the parts before and
after the first occurrence, if any. -/
def splitOnceChar (sep : Char) : List Char → Option (List Char × List Char)
  | [] => none
  | c :: rest =>
      if c = sep then some ([], rest)
      else
        match splitOnceChar sep rest with
        | some (l, r) => some (c :: l, r)
        | none => none

theorem splitAllChar_ne_nil (sep : Char) (l : List Char) :
    splitAllChar sep l ≠ [] := by
  cases l with
  | nil => simp [splitAllChar]
  | cons c rest =>
      by_cases h : c = sep
      · simp [splitAllChar, h]
      · simp only [splitAllChar, h, if_false]
        cases hr : splitAllChar sep rest <;> simp

theorem splitAllChar_of_not_mem {sep : Char} {l : List Char}
    (h : sep ∉ l) : splitAllChar sep l = [l] := by
  induction l with
  | nil => rfl
  | cons c rest ih =>
      have hc : ¬ c = sep := fun hcs => h (hcs ▸ List.mem_cons_self c rest)
      have hrest : sep ∉ rest := fun hm => h (List.mem_cons_of_mem c hm)
      simp [splitAllChar, hc, ih hrest]

theorem splitAllChar_singleton {sep : Char} {l x : List Char}
    (h : splitAllChar sep l = [x]) : x = l := by
  induction l generalizing x with
  | nil => simp [splitAllChar] at h; exact h
  | cons c rest ih =>
      by_cases hc : c = sep
      · exfalso
        subst hc
        simp only [splitAllChar, if_pos rfl] at h
        have := splitAllChar_ne_nil c rest
        cases hr : splitAllChar c rest with
        | nil => exact this hr
        | cons a b => rw [hr] at h; simp at h
      · simp only [splitAllChar, hc, if_false] at h
        cases hr : splitAllChar sep rest with
        | nil => exact absurd hr (splitAllChar_ne_nil sep rest)
        | cons a b =>
            rw [hr] at h
            simp only [List.cons.injEq] at h
            obtain ⟨h1, h2⟩ := h
            subst h2
            have har : a = rest := ih (by rw [hr])
            simp [← h1, har]

theorem splitOnceChar_none {sep : Char} {l : List Char} :
    splitOnceChar sep l = none ↔ sep ∉ l := by
  induction l with
  | nil => simp [splitOnceChar]
  | cons c rest ih =>
      by_cases hc : c = sep
      · subst hc; simp [splitOnceChar]
      · simp only [splitOnceChar, hc, if_false]
        cases hr : splitOnceChar sep rest with
        | some p => simp [List.mem_cons, Ne.symm hc, ← ih, hr]
        | none => simp [List.mem_cons, Ne.symm hc, ← ih, hr]

theorem splitOnceChar_some {sep : Char} {l a b : List Char}
    (h : splitOnceChar sep l = some (a, b)) : l = a ++ sep :: b ∧ sep ∉ a := by
  induction l generalizing a b with
  | nil => simp [splitOnceChar] at h
  | cons c rest ih =>
      by_cases hc : c = sep
      · subst hc
        simp only [splitOnceChar, if_pos rfl, Option.some.injEq, Prod.mk.injEq] at h
        rcases h with ⟨rfl, rfl⟩
        simp
      · simp only [splitOnceChar, hc, if_false] at h
        cases hr : splitOnceChar sep rest with
        | none => rw [hr] at h; simp at h
        | some p =>
            rcases p with ⟨l1, r1⟩
            rw [hr] at h
            simp only [Option.some.injEq, Prod.mk.injEq] at h
            obtain ⟨h1, h2⟩ := h
            rcases ih hr with ⟨ha, hb⟩
            subst h2
            constructor
            · rw [← h1]; simp [ha]
            · rw [← h1]
              intro hm
              rcases List.mem_cons.mp hm with hm' | hm'
              · exact hc hm'.symm
              · exact hb hm'

theorem splitAllChar_append {sep : Char} {a b : List Char} (ha : sep ∉ a) :
    splitAllChar sep (a ++ sep :: b) = a :: splitAllChar sep b := by
  induction a with
  | nil => simp [splitAllChar]
  | cons c arest ih =>
      have hc : ¬ c = sep := fun hcs => ha (hcs ▸ List.mem_cons_self c arest)
      have harest : sep ∉ arest := fun hm => ha (List.mem_cons_of_mem c hm)
      simp [splitAllChar, hc, ih harest]

/-- Embedding of `get_host_port` (src/cgi-rs/src/server.rs lines 395-402 and
src/src/server.rs lines 392-399): split the host value on every `:`; only if
that yields exactly two pieces and the second parses as a `u16` return
(hostname, port). -/
def get_host_port (value : String) : Option (String × Nat) :=
  let split := splitAllChar ':' value.data
  if split.length = 2 then
    match split with
    | [l, r] =>
        match parseRustUnsigned 65536 (String.mk r) with
        | some p => some (String.mk l, p)
        | none => none
    | _ => none
  else none

/-- Modelled from the spec's words only (claim side of C6): split the host
value on the FIRST `:`; if there is one and the right part parses as a 16-bit
unsigned integer, return (left part, parsed port). -/
def specHostPort (value : String) : Option (String × Nat) :=
  match splitOnceChar ':' value.data with
  | some (l, r) =>
      match parseRustUnsigned 65536 (String.mk r) with
      | some p => some (String.mk l, p)
      | none => none
  | none => none

theorem parseRustUnsigned_no_colon {bound : Nat} {s : String} {n : Nat}
    (h : parseRustUnsigned bound s = some n) : (':' : Char) ∉ s.data := by
  unfold parseRustUnsigned at h
  cases hd : s.data with
  | nil => rw [hd] at h; exact absurd h (by simp)
  | cons c rest =>
      rw [hd] at h
      intro hm
      by_cases hc : c = '+'
      · subst hc
        cases hr : rest with
        | nil => rw [hr] at h; simp at h
        | cons d ds =>
            rw [hr] at h
            simp only [if_pos rfl] at h
            rcases Option.bind_eq_some.mp h with ⟨m, hm1, _⟩
            have hdig := digitsValAux_isDigit hm1
            rcases List.mem_cons.mp hm with hcol | hcol
            · exact absurd hcol.symm (by decide)
            · rw [hr] at hcol
              have := hdig _ hcol
              simp at this
      · simp only [if_neg hc] at h
        rcases Option.bind_eq_some.mp h with ⟨m, hm1, _⟩
        have hdig := digitsValAux_isDigit hm1
        have := hdig _ hm
        simp at this

/-- The source's split-on-all-colons test agrees with the spec's
split-on-first-colon description of host/port extraction. -/
theorem get_host_port_eq_spec (value : String) :
    get_host_port value = specHostPort value := by
  unfold get_host_port specHostPort
  cases ho : splitOnceChar ':' value.data with
  | none =>
      have hni : (':' : Char) ∉ value.data := splitOnceChar_none.mp ho
      rw [splitAllChar_of_not_mem hni]
      simp
  | some p =>
      rcases p with ⟨l, r⟩
      rcases splitOnceChar_some ho with ⟨hval, hnl⟩
      rw [hval, splitAllChar_append hnl]
      cases hp : parseRustUnsigned 65536 (String.mk r) with
      | some n =>
          have hnr : (':' : Char) ∉ r := by
            have := parseRustUnsigned_no_colon hp
            simpa using this
          rw [splitAllChar_of_not_mem hnr]
          simp [hp]
      | none =>
          by_cases hl : (splitAllChar ':' r).length = 1
          · cases hsp : splitAllChar ':' r with
            | nil => exact absurd hsp (splitAllChar_ne_nil ':' r)
            | cons a b =>
                rw [hsp] at hl
                simp only [List.length_cons, Nat.add_left_eq_self, List.length_eq_zero] at hl
                subst hl
                have ha : a = r := splitAllChar_singleton hsp
                subst ha
                simp [hsp, hp]
          · have hne : (l :: splitAllChar ':' r).length ≠ 2 := by
              simp only [List.length_cons]
              omega
            rw [if_neg hne]
            simp [hp]

theorem strData_append (a b : String) : (a ++ b).data = a.data ++ b.data := by
  cases a; cases b; rfl

theorem strExt {a b : String} (h : a.data = b.data) : a = b := by
  cases a; cases b; exact congrArg String.mk h

/-- Embedding of `str::to_uppercase` restricted to its per-`char` action
(header names are ASCII, where Rust's Unicode uppercasing is `Char.toUpper`
character by character). -/
def upperStr (s : String) : String := String.mk (s.data.map Char.toUpper)

theorem http_prefixed_ne {s : String} (x : String) (h : s.data.head? ≠ some 'H') :
    ("HTTP_" ++ x) ≠ s := by
  intro he
  apply h
  rw [← he, strData_append]
  rfl

theorem http_append_inj {a b : String} (h : "HTTP_" ++ a = "HTTP_" ++ b) : a = b := by
  have hd : ("HTTP_" ++ a).data = ("HTTP_" ++ b).data := by rw [h]
  rw [strData_append, strData_append] at hd
  exact strExt (List.append_cancel_left hd)

/-- The per-request environment map (`HashMap<String, String>` in the
source), modelled as a lookup function; `envInsert` is `HashMap::insert`
(overwrites on key collision). -/
def Env : Type := String → Option String

def envInsert (k v : String) (e : Env) : Env :=
  fun q => if q = k then some v else e q

def emptyEnv : Env := fun _ => none

theorem envInsert_eq (k v : String) (e : Env) : envInsert k v e k = some v := by
  simp [envInsert]

theorem envInsert_ne {q k : String} (h : q ≠ k) (v : String) (e : Env) :
    envInsert k v e q = e q := by
  simp [envInsert, h]

/-- An incoming HTTP request as the environment builder consumes it: hyper's
`HeaderMap` is a multimap whose keys are unique lowercase names, modelled as
an association list from name to the ordered list of raw values of that
name. -/
structure Request where
  headers : List (String × List ByteStr)
  method : String
  uriPath : String
  uriQuery : Option String

/-- Embedding of `req.headers().get(name)`: the first value of that name. -/
def Request.get (req : Request) (name : String) : Option ByteStr :=
  (req.headers.find? (fun p => p.fst == name)).bind (fun p => p.snd.head?)

/-- Embedding of `Uri::path_and_query` rendering (path, then `?query` when a
query is present). -/
def Request.pathAndQuery (req : Request) : Option String :=
  some (req.uriPath ++ (match req.uriQuery with | some q => "?" ++ q | none => ""))

/-- The `Script` descriptor (src/cgi-rs/src/server.rs lines 43-64), with
paths as strings. -/
structure Script where
  path : String
  root : String
  dir : Option String
  env : List (String × String)
  args : List String
  inherited_env : List String

/-- Fallback PATH inserted when the host has no non-empty PATH (serve lines
178-192). -/
def fallbackPath : String := "/bin:/usr/bin:/usr/ucb:/usr/bsd:/usr/local/bin"

/-- OS_SPECIFIC_VARS for target_os = "linux" (serve lines 417-418). -/
def osSpecificVars : List String := ["LD_LIBRARY_PATH"]

/-- Stages 1-5 of the environment builder (serve lines 78-83 and 94-133):
fixed metadata, Host handling, method/query/uri, path-info, remote info.
`String.drop root.length` models Rust's byte slicing `&req_path[root.len()..]`
(identical on ASCII paths). -/
def baseEnv (s : Script) (req : Request) (remoteIp : String) (remotePort : Nat) : Env :=
  let root := if s.root = "" then "/" else s.root
  let reqPath := req.uriPath
  let pathInfo :=
    if root != "/" && reqPath.startsWith root then reqPath.drop root.length else reqPath
  let e := envInsert "SERVER_SOFTWARE" "cgi-server-rs" emptyEnv
  let e := envInsert "SERVER_PROTOCOL" "HTTP/1.1" e
  let e := envInsert "GATEWAY_INTERFACE" "CGI/1.1" e
  let e :=
    match req.get "host" with
    | some hv =>
        match toAsciiStr hv with
        | some host =>
            let e := envInsert "HTTP_HOST" host e
            match get_host_port host with
            | some (hostname, port) =>
                envInsert "SERVER_PORT" (toString port) (envInsert "SERVER_NAME" hostname e)
            | none => envInsert "SERVER_PORT" "80" (envInsert "SERVER_NAME" host e)
        | none => e
    | none => e
  let e := envInsert "REQUEST_METHOD" req.method e
  let e := match req.uriQuery with | some q => envInsert "QUERY_STRING" q e | none => e
  let e := match req.pathAndQuery with | some pq => envInsert "REQUEST_URI" pq e | none => e
  let e := envInsert "PATH_INFO" pathInfo e
  let e := envInsert "SCRIPT_NAME" root e
  let e := envInsert "SCRIPT_FILENAME" s.path e
  let e := envInsert "REMOTE_ADDR" remoteIp e
  let e := envInsert "REMOTE_HOST" remoteIp e
  envInsert "REMOTE_PORT" (toString remotePort) e

/-- The fold in serve lines 147-154: extend the join with each later value of
the name that converts to ASCII; non-ASCII later values are skipped. -/
def joinVals (sep : String) (first : String) (rest : List ByteStr) : String :=
  rest.foldl (fun s hv => match toAsciiStr hv with | some h => s ++ sep ++ h | none => s) first

/-- Modelled from the spec's words (claim side of C7): the separator-join of
a list of strings. -/
def specJoin (sep : String) : List String → String
  | [] => ""
  | [a] => a
  | a :: rest => a ++ sep ++ specJoin sep rest

/-- One iteration of the header loop (serve lines 135-157) for one distinct
header name: upper-case the name, skip PROXY, join this name's values
(hyper's `get_all` by the upper-cased name finds exactly this entry's value
list, lookups being case-insensitive) and insert HTTP_<NAME>; when the FIRST
value fails `to_str` the `if let Some(Ok(first))` fails and nothing is
inserted for this name. -/
def processHeaderEntry (e : Env) (entry : String × List ByteStr) : Env :=
  let k := upperStr entry.fst
  if k = "PROXY" then e
  else
    let sep := if k = "COOKIE" then ";" else ","
    match entry.snd with
    | [] => e
    | v0 :: rest =>
        match toAsciiStr v0 with
        | some first => envInsert ("HTTP_" ++ k) (joinVals sep first rest) e
        | none => e

/-- Stage 6: the whole header loop over the request's distinct header names. -/
def headerStage (headers : List (String × List ByteStr)) (e : Env) : Env :=
  headers.foldl processHeaderEntry e

/-- Stage 7 (serve lines 159-176): CONTENT_LENGTH (first value, `to_str`,
`parse::<u32>`, canonical decimal re-rendering) and CONTENT_TYPE (first
value, `to_str`, non-empty). -/
def contentStage (req : Request) (e : Env) : Env :=
  let e :=
    match ((req.get "content-length").bind toAsciiStr).bind (parseRustUnsigned 4294967296) with
    | some cl => envInsert "CONTENT_LENGTH" (toString cl) e
    | none => e
  match (req.get "content-type").bind toAsciiStr with
  | some ct => if ct ≠ "" then envInsert "CONTENT_TYPE" ct e else e
  | none => e

/-- Stage 8 (serve lines 178-192): PATH from the host environment or the
fallback. -/
def pathStage (hostEnv : Env) (e : Env) : Env :=
  match hostEnv "PATH" with
  | some p => if p ≠ "" then envInsert "PATH" p e else envInsert "PATH" fallbackPath e
  | none => envInsert "PATH" fallbackPath e

/-- Stages 9-10 (serve lines 194-208): copy each named host variable when set
and non-empty (used for the script's inherited list and OS_SPECIFIC_VARS). -/
def inheritedStage (names : List String) (hostEnv : Env) (e : Env) : Env :=
  names.foldl (fun e n =>
    match hostEnv n with
    | some v => if v ≠ "" then envInsert n v e else e
    | none => e) e

/-- Stage 11 (serve lines 210-212): the script's explicit env pairs, later
wins. -/
def scriptEnvStage (pairs : List (String × String)) (e : Env) : Env :=
  pairs.foldl (fun e kv => envInsert kv.fst kv.snd e) e

/-- The full environment builder of `Script::serve` (src/cgi-rs/src/server.rs
lines 78-83 and 101-212), stages composed in source order. -/
def buildEnv (s : Script) (req : Request) (remoteIp : String) (remotePort : Nat)
    (hostEnv : Env) : Env :=
  scriptEnvStage s.env
    (inheritedStage osSpecificVars hostEnv
      (inheritedStage s.inherited_env hostEnv
        (pathStage hostEnv
          (contentStage req
            (headerStage req.headers
              (baseEnv s req remoteIp remotePort))))))

theorem scriptEnvStage_notmem : ∀ (pairs : List (String × String)) (e : Env) (k : String),
    (∀ p ∈ pairs, p.fst ≠ k) → scriptEnvStage pairs e k = e k := by
  intro pairs
  induction pairs with
  | nil => intro e k _; rfl
  | cons p rest ih =>
      intro e k h
      have h1 : p.fst ≠ k := h p (List.mem_cons_self p rest)
      have h2 : ∀ q ∈ rest, q.fst ≠ k := fun q hq => h q (List.mem_cons_of_mem p hq)
      calc scriptEnvStage (p :: rest) e k
          = scriptEnvStage rest (envInsert p.fst p.snd e) k := rfl
        _ = (envInsert p.fst p.snd e) k := ih _ _ h2
        _ = e k := envInsert_ne (Ne.symm h1) _ _

theorem inheritedStage_notmem : ∀ (names : List String) (hostEnv e : Env) (k : String),
    k ∉ names → inheritedStage names hostEnv e k = e k := by
  intro names
  induction names with
  | nil => intro hostEnv e k _; rfl
  | cons n rest ih =>
      intro hostEnv e k h
      have h1 : k ≠ n := fun hk => h (hk ▸ List.mem_cons_self n rest)
      have h2 : k ∉ rest := fun hm => h (List.mem_cons_of_mem n hm)
      have hstep : inheritedStage (n :: rest) hostEnv e =
          inheritedStage rest hostEnv
            (match hostEnv n with
             | some v => if v ≠ "" then envInsert n v e else e
             | none => e) := rfl
      rw [hstep, ih _ _ _ h2]
      cases hv : hostEnv n with
      | some v =>
          by_cases hve : v ≠ "" <;> simp [hve, envInsert_ne h1]
      | none => rfl

theorem pathStage_ne {k : String} (h : k ≠ "PATH") (hostEnv e : Env) :
    pathStage hostEnv e k = e k := by
  unfold pathStage
  cases hv : hostEnv "PATH" with
  | some p => by_cases hp : p ≠ "" <;> simp [hp, envInsert_ne h]
  | none => simp [envInsert_ne h]

theorem contentStage_ne {k : String} (h1 : k ≠ "CONTENT_LENGTH")
    (h2 : k ≠ "CONTENT_TYPE") (req : Request) (e : Env) :
    contentStage req e k = e k := by
  unfold contentStage
  cases hcl : ((req.get "content-length").bind toAsciiStr).bind (parseRustUnsigned 4294967296) with
  | some cl =>
      cases hct : (req.get "content-type").bind toAsciiStr with
      | some ct => by_cases hcte : ct ≠ "" <;> simp [hcte, envInsert_ne h1, envInsert_ne h2]
      | none => simp [envInsert_ne h1]
  | none =>
      cases hct : (req.get "content-type").bind toAsciiStr with
      | some ct => by_cases hcte : ct ≠ "" <;> simp [hcte, envInsert_ne h2]
      | none => rfl

theorem processHeaderEntry_ne {k : String} {entry : String × List ByteStr}
    (h : ("HTTP_" ++ upperStr entry.fst) ≠ k) (e : Env) :
    processHeaderEntry e entry k = e k := by
  obtain ⟨n, vals⟩ := entry
  unfold processHeaderEntry
  by_cases hp : upperStr n = "PROXY"
  · simp [hp]
  · simp only [hp, if_false]
    cases vals with
    | nil => rfl
    | cons v0 rest =>
        cases hv : toAsciiStr v0 with
        | some first => simpa [hv] using envInsert_ne (Ne.symm h) _ _
        | none => simp [hv]

theorem headerStage_notmem : ∀ (hs : List (String × List ByteStr)) (e : Env) (k : String),
    (∀ p ∈ hs, ("HTTP_" ++ upperStr p.fst) ≠ k) → headerStage hs e k = e k := by
  intro hs
  induction hs with
  | nil => intro e k _; rfl
  | cons p rest ih =>
      intro e k h
      have h1 := h p (List.mem_cons_self p rest)
      have h2 : ∀ q ∈ rest, ("HTTP_" ++ upperStr q.fst) ≠ k :=
        fun q hq => h q (List.mem_cons_of_mem p hq)
      calc headerStage (p :: rest) e k
          = headerStage rest (processHeaderEntry e p) k := rfl
        _ = (processHeaderEntry e p) k := ih _ _ h2
        _ = e k := processHeaderEntry_ne h1 e

theorem processHeaderEntry_self (e : Env) (name : String) (vals : List ByteStr) :
    processHeaderEntry e (name, vals) ("HTTP_" ++ upperStr name) =
      (if upperStr name = "PROXY" then e ("HTTP_" ++ upperStr name)
       else
        match vals with
        | [] => e ("HTTP_" ++ upperStr name)
        | v0 :: rest =>
            match toAsciiStr v0 with
            | some first =>
                some (joinVals (if upperStr name = "COOKIE" then ";" else ",") first rest)
            | none => e ("HTTP_" ++ upperStr name)) := by
  unfold processHeaderEntry
  by_cases hp : upperStr name = "PROXY"
  · simp [hp]
  · simp only [hp, if_false]
    cases vals with
    | nil => rfl
    | cons v0 rest =>
        cases hv : toAsciiStr v0 with
        | some first => simp [hv, envInsert_eq]
        | none => simp [hv]

theorem headerStage_lookup : ∀ (hs : List (String × List ByteStr)) (e : Env)
    (name : String) (vals : List ByteStr),
    (name, vals) ∈ hs →
    (hs.map (fun p => upperStr p.fst)).Nodup →
    headerStage hs e ("HTTP_" ++ upperStr name) =
      (if upperStr name = "PROXY" then e ("HTTP_" ++ upperStr name)
       else
        match vals with
        | [] => e ("HTTP_" ++ upperStr name)
        | v0 :: rest =>
            match toAsciiStr v0 with
            | some first =>
                some (joinVals (if upperStr name = "COOKIE" then ";" else ",") first rest)
            | none => e ("HTTP_" ++ upperStr name)) := by
  intro hs
  induction hs with
  | nil => intro e name vals hmem _; cases hmem
  | cons p rest ih =>
      intro e name vals hmem hnd
      simp only [List.map_cons, List.nodup_cons] at hnd
      obtain ⟨hhd, hnd1⟩ := hnd
      rcases List.mem_cons.mp hmem with heq | hmem'
      · subst heq
        have hni : ∀ q ∈ rest, ("HTTP_" ++ upperStr q.fst) ≠ ("HTTP_" ++ upperStr name) := by
          intro q hq hcontra
          exact hhd (http_append_inj hcontra ▸
            List.mem_map_of_mem (fun p => upperStr p.fst) hq)
        calc headerStage ((name, vals) :: rest) e ("HTTP_" ++ upperStr name)
            = headerStage rest (processHeaderEntry e (name, vals)) ("HTTP_" ++ upperStr name) := rfl
          _ = processHeaderEntry e (name, vals) ("HTTP_" ++ upperStr name) :=
              headerStage_notmem _ _ _ hni
          _ = _ := processHeaderEntry_self e name vals
      · have hne : ("HTTP_" ++ upperStr p.fst) ≠ ("HTTP_" ++ upperStr name) := by
          intro hcontra
          exact hhd (http_append_inj hcontra ▸
            List.mem_map_of_mem (fun p => upperStr p.fst) hmem')
        have hbase : processHeaderEntry e p ("HTTP_" ++ upperStr name) =
            e ("HTTP_" ++ upperStr name) := processHeaderEntry_ne hne e
        calc headerStage (p :: rest) e ("HTTP_" ++ upperStr name)
            = headerStage rest (processHeaderEntry e p) ("HTTP_" ++ upperStr name) := rfl
          _ = _ := by rw [ih _ _ _ hmem' hnd1, hbase]

theorem strAppend_assoc (a b c : String) : a ++ b ++ c = a ++ (b ++ c) := by
  apply strExt
  simp [strData_append, List.append_assoc]

theorem specJoin_append (sep a b : String) (l : List String) :
    specJoin sep ((a ++ sep ++ b) :: l) = a ++ sep ++ specJoin sep (b :: l) := by
  cases l with
  | nil => rfl
  | cons c rest =>
      show (a ++ sep ++ b) ++ sep ++ specJoin sep (c :: rest)
          = a ++ sep ++ (b ++ sep ++ specJoin sep (c :: rest))
      apply strExt
      simp [strData_append, List.append_assoc]

/-- The source's value-joining fold equals the spec's separator-join of the
first value with the later values that survive `to_str`. -/
theorem joinVals_eq_specJoin (sep : String) : ∀ (rest : List ByteStr) (first : String),
    joinVals sep first rest = specJoin sep (first :: rest.filterMap toAsciiStr) := by
  intro rest
  induction rest with
  | nil => intro first; rfl
  | cons v r ih =>
      intro first
      cases hv : toAsciiStr v with
      | some h =>
          have hstep : joinVals sep first (v :: r) = joinVals sep (first ++ sep ++ h) r := by
            simp [joinVals, hv]
          rw [hstep, ih, specJoin_append]
          simp [List.filterMap_cons, hv, specJoin]
      | none =>
          have hstep : joinVals sep first (v :: r) = joinVals sep first r := by
            simp [joinVals, hv]
          rw [hstep, ih]
          simp [List.filterMap_cons, hv]

/-- A plain script configuration: no explicit env pairs and no inherited
names, as the CLI front-end constructs by default. -/
def plainScript : Script :=
  { path := "/srv/app", root := "", dir := none, env := [], args := [], inherited_env := [] }

/-- For keys no stage after the header loop writes, a `plainScript` lookup
reduces to the header stage over the base environment. -/
theorem buildEnv_plain_reduce (req : Request) (ip : String) (port : Nat) (hostEnv : Env)
    {k : String} (h1 : k ≠ "CONTENT_LENGTH") (h2 : k ≠ "CONTENT_TYPE") (h3 : k ≠ "PATH")
    (h4 : k ≠ "LD_LIBRARY_PATH") :
    buildEnv plainScript req ip port hostEnv k =
      headerStage req.headers (baseEnv plainScript req ip port) k := by
  unfold buildEnv
  have henv : plainScript.env = [] := rfl
  have hinh : plainScript.inherited_env = [] := rfl
  rw [henv, hinh]
  rw [scriptEnvStage_notmem _ _ _ (fun p hp => absurd hp (List.not_mem_nil p))]
  rw [inheritedStage_notmem _ _ _ _ (by simpa [osSpecificVars] using h4)]
  rw [inheritedStage_notmem _ _ _ _ (List.not_mem_nil k)]
  rw [pathStage_ne h3, contentStage_ne h1 h2]

/-- For keys outside the base stage's write set, the base environment lookup
is `none`, for every request. -/
theorem baseEnv_other (s : Script) (req : Request) (ip : String) (port : Nat) {k : String}
    (h : k ∉ ["SERVER_SOFTWARE", "SERVER_PROTOCOL", "GATEWAY_INTERFACE", "HTTP_HOST",
        "SERVER_NAME", "SERVER_PORT", "REQUEST_METHOD", "QUERY_STRING", "REQUEST_URI",
        "PATH_INFO", "SCRIPT_NAME", "SCRIPT_FILENAME", "REMOTE_ADDR", "REMOTE_HOST",
        "REMOTE_PORT"]) :
    baseEnv s req ip port k = none := by
  simp only [List.mem_cons, List.not_mem_nil, or_false, not_or] at h
  obtain ⟨h1, h2, h3, h4, h5, h6, h7, h8, h9, h10, h11, h12, h13, h14, h15⟩ := h
  simp only [baseEnv, Request.pathAndQuery]
  cases hg : req.get "host" with
  | none =>
      cases hq : req.uriQuery <;>
        simp [envInsert, emptyEnv, h1, h2, h3, h4, h5, h6, h7, h8, h9, h10, h11, h12, h13, h14, h15]
  | some hv =>
      cases ha : toAsciiStr hv with
      | none =>
          cases hq : req.uriQuery <;>
            simp [envInsert, emptyEnv, ha, h1, h2, h3, h4, h5, h6, h7, h8, h9, h10, h11, h12, h13, h14, h15]
      | some host =>
          cases hp : get_host_port host with
          | none =>
              cases hq : req.uriQuery <;>
                simp [envInsert, emptyEnv, ha, hp, h1, h2, h3, h4, h5, h6, h7, h8, h9, h10, h11, h12, h13, h14, h15]
          | some pr =>
              obtain ⟨hn, prt⟩ := pr
              cases hq : req.uriQuery <;>
                simp [envInsert, emptyEnv, ha, hp, h1, h2, h3, h4, h5, h6, h7, h8, h9, h10, h11, h12, h13, h14, h15]

theorem processHeaderEntry_proxy (e : Env) (entry : String × List ByteStr) :
    processHeaderEntry e entry "HTTP_PROXY" = e "HTTP_PROXY" := by
  by_cases hp : upperStr entry.fst = "PROXY"
  · obtain ⟨n, vals⟩ := entry
    simp only at hp
    simp [processHeaderEntry, hp]
  · refine processHeaderEntry_ne ?_ e
    intro hcontra
    apply hp
    apply http_append_inj
    rw [hcontra]
    decide

theorem headerStage_proxy : ∀ (hs : List (String × List ByteStr)) (e : Env),
    headerStage hs e "HTTP_PROXY" = e "HTTP_PROXY" := by
  intro hs
  induction hs with
  | nil => intro e; rfl
  | cons p rest ih =>
      intro e
      calc headerStage (p :: rest) e "HTTP_PROXY"
          = headerStage rest (processHeaderEntry e p) "HTTP_PROXY" := rfl
        _ = (processHeaderEntry e p) "HTTP_PROXY" := ih _
        _ = e "HTTP_PROXY" := processHeaderEntry_proxy e p

/-- A GET / request whose only header is Host with the single value v. -/
def hostOnlyRequest (v : ByteStr) : Request :=
  { headers := [("host", [v])], method := "GET", uriPath := "/", uriQuery := none }

/-- A GET / request whose only header is Content-Length with the single
value v. -/
def contentLengthRequest (v : ByteStr) : Request :=
  { headers := [("content-length", [v])], method := "GET", uriPath := "/", uriQuery := none }

/-- A GET / request with no headers at all. -/
def bareRequest : Request :=
  { headers := [], method := "GET", uriPath := "/", uriQuery := none }

theorem baseEnv_hostOnly (v : ByteStr) (host : String) (hAscii : toAsciiStr v = some host)
    (ip : String) (port : Nat) :
    baseEnv plainScript (hostOnlyRequest v) ip port "HTTP_HOST" = some host
    ∧ (∀ hostname p, get_host_port host = some (hostname, p) →
        baseEnv plainScript (hostOnlyRequest v) ip port "SERVER_NAME" = some hostname
        ∧ baseEnv plainScript (hostOnlyRequest v) ip port "SERVER_PORT" = some (toString p))
    ∧ (get_host_port host = none →
        baseEnv plainScript (hostOnlyRequest v) ip port "SERVER_NAME" = some host
        ∧ baseEnv plainScript (hostOnlyRequest v) ip port "SERVER_PORT" = some "80") := by
  have hget : (hostOnlyRequest v).get "host" = some v := rfl
  have huq : (hostOnlyRequest v).uriQuery = none := rfl
  refine ⟨?_, ?_, ?_⟩
  · simp only [baseEnv, Request.pathAndQuery, hget, hAscii, huq, plainScript]
    cases hp : get_host_port host with
    | some pr => obtain ⟨hn, prt⟩ := pr; simp [hp, envInsert]
    | none => simp [hp, envInsert]
  · intro hostname p hp
    constructor <;>
      simp [baseEnv, Request.pathAndQuery, hget, hAscii, huq, plainScript, hp, envInsert]
  · intro hp
    constructor <;>
      simp [baseEnv, Request.pathAndQuery, hget, hAscii, huq, plainScript, hp, envInsert]

/-- C6: for every request carrying a Host header whose value is valid ASCII,
the built CGI environment has HTTP_HOST set to that value; when splitting the
value on the first `:` yields two parts whose right side parses as a 16-bit
unsigned integer (`specHostPort`), SERVER_NAME is the left part and
SERVER_PORT the parsed number; otherwise (no `:`, or right side not a u16 —
including values with two or more `:`) SERVER_NAME is the whole value and
SERVER_PORT is "80".  The source's `get_host_port` (split on every `:`,
exactly-two-pieces test) is proved equal to the split-on-first description in
`get_host_port_eq_spec`. -/
theorem claim_C6_host_env (v : ByteStr) (host : String) (hostEnv : Env)
    (hAscii : toAsciiStr v = some host) :
    buildEnv plainScript (hostOnlyRequest v) "1.2.3.4" 5678 hostEnv "HTTP_HOST" = some host
    ∧ (∀ hostname port, specHostPort host = some (hostname, port) →
        buildEnv plainScript (hostOnlyRequest v) "1.2.3.4" 5678 hostEnv "SERVER_NAME" = some hostname
        ∧ buildEnv plainScript (hostOnlyRequest v) "1.2.3.4" 5678 hostEnv "SERVER_PORT" = some (toString port))
    ∧ (specHostPort host = none →
        buildEnv plainScript (hostOnlyRequest v) "1.2.3.4" 5678 hostEnv "SERVER_NAME" = some host
        ∧ buildEnv plainScript (hostOnlyRequest v) "1.2.3.4" 5678 hostEnv "SERVER_PORT" = some "80") := by
  obtain ⟨hh, hsome, hnone⟩ := baseEnv_hostOnly v host hAscii "1.2.3.4" 5678
  have hhd : (hostOnlyRequest v).headers = [("host", [v])] := rfl
  have hnm : ∀ k2 : String, ("HTTP_" ++ upperStr "host") ≠ k2 →
      ∀ p ∈ [("host", [v])], ("HTTP_" ++ upperStr p.fst) ≠ k2 := by
    intro k2 hk2 p hp
    have : p = ("host", [v]) := by simpa using hp
    subst this
    exact hk2
  refine ⟨?_, ?_, ?_⟩
  · rw [buildEnv_plain_reduce _ _ _ _ (by decide) (by decide) (by decide) (by decide), hhd]
    have hkey : ("HTTP_" ++ upperStr "host") = "HTTP_HOST" := by decide
    rw [← hkey]
    rw [headerStage_lookup [("host", [v])] _ "host" [v] (by simp) (by simp)]
    rw [hkey, hh]
    simp [hAscii, joinVals]
  · intro hostname port hsp
    have hcode : get_host_port host = some (hostname, port) := by
      rw [get_host_port_eq_spec, hsp]
    obtain ⟨hn1, hn2⟩ := hsome hostname port hcode
    constructor
    · rw [buildEnv_plain_reduce _ _ _ _ (by decide) (by decide) (by decide) (by decide), hhd]
      rw [headerStage_notmem _ _ _ (hnm _ (by decide))]
      exact hn1
    · rw [buildEnv_plain_reduce _ _ _ _ (by decide) (by decide) (by decide) (by decide), hhd]
      rw [headerStage_notmem _ _ _ (hnm _ (by decide))]
      exact hn2
  · intro hsp
    have hcode : get_host_port host = none := by
      rw [get_host_port_eq_spec, hsp]
    obtain ⟨hn1, hn2⟩ := hnone hcode
    constructor
    · rw [buildEnv_plain_reduce _ _ _ _ (by decide) (by decide) (by decide) (by decide), hhd]
      rw [headerStage_notmem _ _ _ (hnm _ (by decide))]
      exact hn1
    · rw [buildEnv_plain_reduce _ _ _ _ (by decide) (by decide) (by decide) (by decide), hhd]
      rw [headerStage_notmem _ _ _ (hnm _ (by decide))]
      exact hn2

/-- Witness for C6 at the concrete host value "example:8080". -/
theorem claim_C6_witness :
    buildEnv plainScript (hostOnlyRequest (strBytes "example:8080")) "1.2.3.4" 5678 emptyEnv
        "HTTP_HOST" = some "example:8080"
    ∧ buildEnv plainScript (hostOnlyRequest (strBytes "example:8080")) "1.2.3.4" 5678 emptyEnv
        "SERVER_NAME" = some "example"
    ∧ buildEnv plainScript (hostOnlyRequest (strBytes "example:8080")) "1.2.3.4" 5678 emptyEnv
        "SERVER_PORT" = some "8080" := by
  have h := claim_C6_host_env (strBytes "example:8080") "example:8080" emptyEnv (by rfl)
  refine ⟨h.1, ?_, ?_⟩
  · exact (h.2.1 "example" 8080 (by rfl)).1
  · exact (h.2.1 "example" 8080 (by rfl)).2

/-- C7 (amended): for every distinct header name (upper-cased names pairwise
distinct, as hyper guarantees), when the name is not PROXY and its FIRST
value is valid ASCII, HTTP_<UPPERCASED_NAME> is set to the values joined with
";" for COOKIE and "," otherwise, later non-ASCII values being dropped
silently (`filterMap toAsciiStr`); and no HTTP_PROXY variable is ever set.
The amendment: when the FIRST value of a name is not valid ASCII, the source
sets no HTTP_ variable for that name at all (see the counterexample), rather
than keeping the remaining ASCII values. -/
theorem claim_C7_amended :
    (∀ (req : Request) (ip : String) (port : Nat) (hostEnv : Env) (name : String)
        (v0 : ByteStr) (rest : List ByteStr) (first : String),
        (name, v0 :: rest) ∈ req.headers →
        (req.headers.map (fun p => upperStr p.fst)).Nodup →
        upperStr name ≠ "PROXY" →
        toAsciiStr v0 = some first →
        buildEnv plainScript req ip port hostEnv ("HTTP_" ++ upperStr name) =
          some (specJoin (if upperStr name = "COOKIE" then ";" else ",")
            (first :: rest.filterMap toAsciiStr)))
    ∧ (∀ (req : Request) (ip : String) (port : Nat) (hostEnv : Env),
        buildEnv plainScript req ip port hostEnv "HTTP_PROXY" = none) := by
  constructor
  · intro req ip port hostEnv name v0 rest first hmem hnd hproxy hfirst
    rw [buildEnv_plain_reduce _ _ _ _
      (http_prefixed_ne _ (by decide)) (http_prefixed_ne _ (by decide))
      (http_prefixed_ne _ (by decide)) (http_prefixed_ne _ (by decide))]
    rw [headerStage_lookup req.headers _ name (v0 :: rest) hmem hnd]
    simp [hproxy, hfirst, joinVals_eq_specJoin]
  · intro req ip port hostEnv
    rw [buildEnv_plain_reduce _ _ _ _ (by decide) (by decide) (by decide) (by decide)]
    rw [headerStage_proxy]
    exact baseEnv_other _ _ _ _ (by decide)

/-- C7 counterexample: a header "x-a" whose first value is the non-ASCII byte
200 and whose second value is the ASCII string "ok" produces no HTTP_X-A
variable at all, although the claim as stated requires the remaining ASCII
value "ok" still to appear in the joined result. -/
theorem claim_C7_counterexample :
    toAsciiStr [111, 107] = some "ok"
    ∧ buildEnv plainScript
        { headers := [("x-a", [[200], [111, 107]])], method := "GET", uriPath := "/",
          uriQuery := none }
        "1.2.3.4" 80 emptyEnv "HTTP_X-A" = none := by
  constructor
  · rfl
  · rfl

/-- Witness for C7 (amended) at a concrete Cookie header with two values. -/
theorem claim_C7_witness :
    buildEnv plainScript
      { headers := [("cookie", [strBytes "a=1", strBytes "b=2"])], method := "GET",
        uriPath := "/", uriQuery := none }
      "1.2.3.4" 80 emptyEnv "HTTP_COOKIE" = some "a=1;b=2" := by
  have h := claim_C7_amended.1
    { headers := [("cookie", [strBytes "a=1", strBytes "b=2"])], method := "GET",
      uriPath := "/", uriQuery := none }
    "1.2.3.4" 80 emptyEnv "cookie" (strBytes "a=1") [strBytes "b=2"] "a=1"
    (by simp) (by simp) (by decide) (by rfl)
  have hkey : ("HTTP_" ++ upperStr "cookie") = "HTTP_COOKIE" := by decide
  rw [hkey] at h
  rw [h]
  rfl

/-- C8 (amended): CONTENT_LENGTH is set exactly when the Content-Length
header value is valid ASCII and parses as a 32-bit unsigned integer
(`parse::<u32>` in the source), and then to the canonical decimal rendering
of the parsed value; with no Content-Length header it is not set.  The
amendment: the claim's "parses as a non-negative integer" must be narrowed to
the u32 range — see the counterexample at 4294967296. -/
theorem claim_C8_amended (v : ByteStr) (hostEnv : Env) :
    buildEnv plainScript (contentLengthRequest v) "1.2.3.4" 5678 hostEnv "CONTENT_LENGTH" =
      ((toAsciiStr v).bind (parseRustUnsigned 4294967296)).map (fun n => toString n)
    ∧ buildEnv plainScript bareRequest "1.2.3.4" 5678 hostEnv "CONTENT_LENGTH" = none := by
  have hpeel : ∀ (req : Request),
      buildEnv plainScript req "1.2.3.4" 5678 hostEnv "CONTENT_LENGTH" =
        contentStage req (headerStage req.headers (baseEnv plainScript req "1.2.3.4" 5678))
          "CONTENT_LENGTH" := by
    intro req
    unfold buildEnv
    have henv : plainScript.env = [] := rfl
    have hinh : plainScript.inherited_env = [] := rfl
    rw [henv, hinh]
    rw [scriptEnvStage_notmem _ _ _ (fun p hp => absurd hp (List.not_mem_nil p))]
    rw [inheritedStage_notmem _ _ _ _ (by simp [osSpecificVars])]
    rw [inheritedStage_notmem _ _ _ _ (List.not_mem_nil _)]
    rw [pathStage_ne (by decide)]
  constructor
  · rw [hpeel]
    have hcl : (contentLengthRequest v).get "content-length" = some v := rfl
    have hct : (contentLengthRequest v).get "content-type" = none := rfl
    unfold contentStage
    rw [hcl, hct]
    simp only [Option.none_bind, Option.some_bind]
    cases hx : (toAsciiStr v).bind (parseRustUnsigned 4294967296) with
    | some cl => simp [hx, envInsert_eq]
    | none =>
        simp only [hx, Option.map_none]
        have hhd : (contentLengthRequest v).headers = [("content-length", [v])] := rfl
        rw [hhd]
        rw [headerStage_notmem _ _ _ ?_]
        · apply baseEnv_other
          decide
        · intro p hp
          have : p = ("content-length", [v]) := by simpa using hp
          subst this
          show ("HTTP_" ++ upperStr "content-length") ≠ "CONTENT_LENGTH"
          decide
  · rw [hpeel]
    have hcl : bareRequest.get "content-length" = none := rfl
    have hct : bareRequest.get "content-type" = none := rfl
    unfold contentStage
    rw [hcl, hct]
    simp only [Option.none_bind]
    have hhd : bareRequest.headers = [] := rfl
    rw [hhd]
    show baseEnv plainScript bareRequest "1.2.3.4" 5678 "CONTENT_LENGTH" = none
    apply baseEnv_other
    decide

/-- C8 counterexample: the value "4294967296" (= 2^32) parses as a
non-negative decimal integer in the claim's sense, yet the source's
`parse::<u32>` fails and CONTENT_LENGTH is not set. -/
theorem claim_C8_counterexample :
    specParseNonNegInt "4294967296" = some 4294967296
    ∧ buildEnv plainScript (contentLengthRequest (strBytes "4294967296")) "1.2.3.4" 5678
        emptyEnv "CONTENT_LENGTH" = none := by
  constructor
  · rfl
  · rfl

/-- Outcome of the phase of `Script::serve` that decides between early
rejection and spawning. -/
inductive ServeStage
  | rejected (status : Nat) (body : String)
  | spawns (env : Env)

/-- The `HeaderValue == "chunked"` comparison target (byte equality). -/
def chunkedBytes : ByteStr := strBytes "chunked"

/-- The entry of `Script::serve` up to the spawn decision (src/cgi-rs/src/server.rs
lines 78-246): the Transfer-Encoding check (lines 85-92, first value of the
header compared bytewise to "chunked") runs before anything else; only the
`spawns` branch constructs the CGI environment and reaches `Command::spawn`
(the working directory and argument plumbing carry no claim and are not
modelled). -/
def serveEntry (s : Script) (req : Request) (remoteIp : String) (remotePort : Nat)
    (hostEnv : Env) : ServeStage :=
  match req.get "transfer-encoding" with
  | some enc =>
      if enc = chunkedBytes then
        ServeStage.rejected 400 "Chunked encoding is not supported by CGI."
      else ServeStage.spawns (buildEnv s req remoteIp remotePort hostEnv)
  | none => ServeStage.spawns (buildEnv s req remoteIp remotePort hostEnv)

/-- C2: for every script and request whose Transfer-Encoding header is
"chunked", serve answers 400 with body exactly "Chunked encoding is not
supported by CGI.", taking the rejected branch, which precedes environment
construction and carries no environment, so no child is spawned. -/
theorem claim_C2_chunked_rejected (s : Script) (req : Request) (remoteIp : String)
    (remotePort : Nat) (hostEnv : Env)
    (h : req.get "transfer-encoding" = some chunkedBytes) :
    serveEntry s req remoteIp remotePort hostEnv =
      ServeStage.rejected 400 "Chunked encoding is not supported by CGI." := by
  unfold serveEntry
  rw [h]
  simp

/-- Witness for C2 at a concrete chunked request. -/
theorem claim_C2_witness :
    serveEntry plainScript
      { headers := [("transfer-encoding", [strBytes "chunked"])], method := "POST",
        uriPath := "/", uriQuery := none }
      "1.2.3.4" 80 emptyEnv =
      ServeStage.rejected 400 "Chunked encoding is not supported by CGI." :=
  claim_C2_chunked_rejected plainScript _ "1.2.3.4" 80 emptyEnv (by rfl)

/-- A character accepted in an http-crate HeaderName (lowercase is produced
on parse; uppercase input letters are accepted and mapped down). -/
def headerNameCharOk (c : Char) : Bool :=
  c.isAlphanum || c = Char.ofNat 33 || c = Char.ofNat 35 || c = Char.ofNat 36 ||
  c = Char.ofNat 37 || c = Char.ofNat 38 || c = Char.ofNat 39 || c = Char.ofNat 42 ||
  c = Char.ofNat 43 || c = Char.ofNat 45 || c = Char.ofNat 46 || c = Char.ofNat 94 ||
  c = Char.ofNat 95 || c = Char.ofNat 96 || c = Char.ofNat 124 || c = Char.ofNat 126

/-- Embedding of `HeaderName::try_from(&str)` validity. -/
def validHeaderName (k : String) : Bool :=
  (k != "") && k.data.all headerNameCharOk

/-- Lowercasing performed by HeaderName parsing (ASCII per-char). -/
def lowerStr (s : String) : String := String.mk (s.data.map Char.toLower)

/-- Embedding of `HeaderValue::try_from(&str)` validity (no control bytes
other than tab). -/
def validHeaderValue (v : String) : Bool :=
  v.data.all (fun c => c.toNat = 9 || (32 ≤ c.toNat && c.toNat ≠ 127))

/-- Rust `split_once` on strings (single-character pattern). -/
def splitOnceStr (sep : Char) (s : String) : Option (String × String) :=
  (splitOnceChar sep s.data).map (fun p => (String.mk p.fst, String.mk p.snd))

/-- The `code_str` computation of serve lines 299-304: the substring before
the first space when the value contains one, else the whole value. -/
def beforeFirstSpace (v : String) : String :=
  match splitOnceStr (Char.ofNat 32) v with
  | some (code, _) => code
  | none => v

/-- The Status value handling of serve lines 298-319: `code_str` as above,
`parse::<u16>`, then `StatusCode::from_u16` (the http crate accepts exactly
100..=999); on any failure the result is `none` (the source only logs). -/
def statusFromValue (v : String) : Option Nat :=
  let codeStr := beforeFirstSpace v
  match parseRustUnsigned 65536 codeStr with
  | some code => if 100 ≤ code ∧ code ≤ 999 then some code else none
  | none => none

/-- The header-parser state of serve lines 275-280 (response builder's
accumulated headers plus the four locals). -/
structure ParserState where
  hasHeader : Bool
  statusCode : Option Nat
  hasLocation : Bool
  hasContentType : Bool
  headers : List (String × String)
deriving DecidableEq

/-- Rust `str::trim` (ASCII whitespace, as in header lines), structural so
that concrete evaluation reduces. -/
def trimStr (s : String) : String :=
  String.mk (((s.data.dropWhile Char.isWhitespace).reverse.dropWhile Char.isWhitespace).reverse)

/-- One non-blank header line after `trim` (serve lines 295-343): split on
the first `:` and trim both sides; a `Status` key updates the recorded code
when the value parses to a valid code and is logged and ignored otherwise;
other keys are registered when HeaderName/HeaderValue accept them (the name
lowercased by HeaderName); the Location and Content-Type flags are checked
on the trimmed key independently of registration; a line without `:` is
logged and skipped. -/
def processHeaderLine (st : ParserState) (line : String) : ParserState :=
  match splitOnceStr ':' line with
  | some (k0, v0) =>
      let k := trimStr k0
      let v := trimStr v0
      let st1 :=
        if k = "Status" then
          { st with statusCode :=
              match statusFromValue v with
              | some code => some code
              | none => st.statusCode }
        else
          if validHeaderName k && validHeaderValue v then
            { st with headers := st.headers ++ [(lowerStr k, v)] }
          else st
      let st2 := if k = "Location" ∧ v ≠ "" then { st1 with hasLocation := true } else st1
      if k = "Content-Type" ∧ v ≠ "" then { st2 with hasContentType := true } else st2
  | none => st

/-- The read_line loop of serve lines 282-352: `lines` are the strings
`read_line` delivers in order (terminators included); after the list is
exhausted `read_line` returns size 0 (EOF) and the loop breaks, as it does
on a line that trims to empty. -/
def runLines : ParserState → List String → ParserState
  | st, [] => st
  | st, line :: rest =>
      if line.length = 0 then st
      else
        let st1 := { st with hasHeader := true }
        if (trimStr line).length = 0 then st1
        else runLines (processHeaderLine st1 (trimStr line)) rest

def initParserState : ParserState :=
  { hasHeader := false, statusCode := none, hasLocation := false,
    hasContentType := false, headers := [] }

/-- The response serve ends up answering for the header phase. -/
inductive ServeResponse
  | err (status : Nat) (msg : String)
  | ok (status : Nat) (headers : List (String × String))
deriving DecidableEq

/-- The post-loop decisions of serve lines 354-391: no header at all is a
500; Location with no status becomes 302; no Content-Type and no status is a
500; otherwise the status defaults to 200. -/
def finalize (st : ParserState) : ServeResponse :=
  if st.hasHeader = false then ServeResponse.err 500 "No header read"
  else
    let statusCode := if st.hasLocation ∧ st.statusCode = none then some 302 else st.statusCode
    if st.hasContentType = false ∧ statusCode = none then
      ServeResponse.err 500 "Missing required Content-Type header"
    else ServeResponse.ok (statusCode.getD 200) st.headers

theorem processHeaderLine_hasHeader (st : ParserState) (line : String) :
    (processHeaderLine st line).hasHeader = st.hasHeader := by
  unfold processHeaderLine
  cases hs : splitOnceStr ':' line with
  | none => rfl
  | some p =>
      obtain ⟨k0, v0⟩ := p
      dsimp only
      repeat' split
      all_goals simp

theorem runLines_header_of_ct : ∀ (lines : List String) (st : ParserState),
    (st.hasContentType = true → st.hasHeader = true) →
    (runLines st lines).hasContentType = true → (runLines st lines).hasHeader = true := by
  intro lines
  induction lines with
  | nil => intro st h; exact h
  | cons line rest ih =>
      intro st h
      unfold runLines
      by_cases h0 : line.length = 0
      · simpa [h0] using h
      · simp only [if_neg h0]
        by_cases h1 : (trimStr line).length = 0
        · simp [h1]
        · simp only [if_neg h1]
          apply ih
          intro _
          rw [processHeaderLine_hasHeader]

/-- C3 (amended): a Status header line only updates the recorded status code
— to the parsed value when the substring before the first space (else the
whole value) parses as a decimal unsigned integer that is a valid HTTP
status code (100..=999), the previous state being kept otherwise (the line
is logged and ignored, never an abort: the parser is a total function on
states); and the finalized response falls back to status 200 when no Status
was recorded, Content-Type was seen, AND no non-empty Location header was
seen.  The amendment adds the Location condition: a Location header with no
Status yields 302, not the claimed 200 (see the counterexample). -/
theorem claim_C3_amended :
    (∀ (st : ParserState) (line k0 v0 : String),
        splitOnceStr ':' line = some (k0, v0) →
        trimStr k0 = "Status" →
        processHeaderLine st line =
          { st with statusCode :=
              match statusFromValue (trimStr v0) with
              | some code => some code
              | none => st.statusCode })
    ∧ (∀ v : String,
        statusFromValue v =
          (specParseNonNegInt (beforeFirstSpace v)).bind
            (fun code => if 100 ≤ code ∧ code ≤ 999 then some code else none))
    ∧ (∀ lines : List String,
        (runLines initParserState lines).statusCode = none →
        (runLines initParserState lines).hasContentType = true →
        (runLines initParserState lines).hasLocation = false →
        finalize (runLines initParserState lines) =
          ServeResponse.ok 200 (runLines initParserState lines).headers) := by
  refine ⟨?_, ?_, ?_⟩
  · intro st line k0 v0 hsplit hk
    unfold processHeaderLine
    rw [hsplit]
    dsimp only
    rw [hk]
    rw [if_pos rfl]
    rw [if_neg (fun hcon => absurd hcon.1 (by decide))]
    rw [if_neg (fun hcon => absurd hcon.1 (by decide))]
  · intro v
    simp only [statusFromValue]
    rw [parseRustUnsigned_eq_spec]
    cases hsp : specParseNonNegInt (beforeFirstSpace v) with
    | none => simp [hsp]
    | some n =>
        simp only [hsp, Option.some_bind]
        by_cases hn : n < 65536
        · simp [hn]
        · rw [if_neg hn, if_neg (by omega)]
  · intro lines h1 h2 h3
    have hh : (runLines initParserState lines).hasHeader = true :=
      runLines_header_of_ct lines initParserState
        (fun hct => by simp [initParserState] at hct) h2
    simp [finalize, hh, h1, h2, h3]

/-- C3 counterexample: a Location plus Content-Type header block with no
Status line finalizes to 302 (Found), not the claimed fallback 200, even
though no valid Status was recorded and Content-Type was seen. -/
theorem claim_C3_counterexample :
    (runLines initParserState
        ["Location: /next\r\n", "Content-Type: text/html\r\n", "\r\n"]).statusCode = none
    ∧ (runLines initParserState
        ["Location: /next\r\n", "Content-Type: text/html\r\n", "\r\n"]).hasContentType = true
    ∧ finalize (runLines initParserState
        ["Location: /next\r\n", "Content-Type: text/html\r\n", "\r\n"]) =
      ServeResponse.ok 302 [("location", "/next"), ("content-type", "text/html")] := by
  refine ⟨by decide, by decide, by decide⟩

/-- Witness for C3 (amended) at a concrete Status line and a concrete
Content-Type-only header block. -/
theorem claim_C3_witness :
    processHeaderLine initParserState "Status: 404 NotFound" =
      { initParserState with statusCode := some 404 }
    ∧ finalize (runLines initParserState ["Content-Type: text/plain\r\n", "\r\n"]) =
      ServeResponse.ok 200 [("content-type", "text/plain")] := by
  constructor
  · have h := claim_C3_amended.1 initParserState "Status: 404 NotFound" "Status"
      " 404 NotFound" (by decide) (by decide)
    rw [h]
    decide
  · have h := claim_C3_amended.2.2 ["Content-Type: text/plain\r\n", "\r\n"]
      (by decide) (by decide) (by decide)
    rw [h]
    decide

/-- The unit error value `ProcessError {}` of src/src/process.rs line 57. -/
inductive ProcessError
  | mk
deriving DecidableEq

/-- The tagged output of the process stream (src/src/process.rs lines 35-38). -/
inductive Output
  | stdout (b : ByteStr)
  | stderr (b : ByteStr)
deriving DecidableEq

/-- One poll result of the request-body input stream
(`Poll<Option<Result<Bytes, E>>>`). -/
inductive InputPoll
  | chunk (b : ByteStr)
  | inErr
  | pending
  | ended
deriving DecidableEq

/-- One poll result of `poll_write` on the child's stdin
(`Poll<io::Result<usize>>`). -/
inductive WritePoll
  | accepted (n : Nat)
  | wErr
  | pending
deriving DecidableEq

/-- One poll result of the stream itself (`Poll<Option<Result<Output,
ProcessError>>>`). -/
inductive StreamPoll
  | readyItem (r : Except ProcessError Output)
  | readyEnd
  | pending

/-- The `ProcessStream` state (src/src/process.rs lines 14-25): presence of
the three pipe handles (an absent handle is one already dropped/taken), the
residual input buffer, the input-closed flag and the read-buffer size.  The
input stream itself and the child handle live outside the state: input polls
arrive as oracle values, and the child is only kept to be dropped with the
stream. -/
structure ProcessStream where
  stdinOpen : Bool
  stdoutOpen : Bool
  stderrOpen : Bool
  inputBuffer : Option ByteStr
  inputClosed : Bool
  outputBufferSize : Nat
deriving DecidableEq

/-- A child handle as `ProcessStream::new` consumes it: the three standard
stream options of a spawned `Child`. -/
structure Child where
  stdinH : Option Unit
  stdoutH : Option Unit
  stderrH : Option Unit
deriving DecidableEq

/-- Embedding of `ProcessStream::new` (src/src/process.rs lines 65-76):
`none` models the `expect` panic raised when any of stdin/stdout/stderr was
not piped; otherwise the stream starts with all handles present, an empty
residual buffer and the input not closed. -/
def ProcessStream.new (child : Child) (outputBufferSize : Nat) : Option ProcessStream :=
  match child.stdinH, child.stdoutH, child.stderrH with
  | some _, some _, some _ =>
      some { stdinOpen := true, stdoutOpen := true, stderrOpen := true,
             inputBuffer := none, inputClosed := false,
             outputBufferSize := outputBufferSize }
  | _, _, _ => none

/-- Result of `push_to_stdin` (src/src/process.rs lines 207-237): the poll
returned, the `delete_stdin` flag, and the residual buffer (`tampon`) left
behind.  On an accepted write of `size` bytes: pending, delete stdin iff
size = 0, keep the unwritten tail iff size < len; on a write error: a ready
error item and delete stdin; on pending: retain the whole chunk. -/
structure PushResult where
  poll : StreamPoll
  deleteStdin : Bool
  tampon : Option ByteStr

def push_to_stdin (v : ByteStr) (w : WritePoll) : PushResult :=
  match w with
  | WritePoll.accepted size =>
      { poll := StreamPoll.pending,
        deleteStdin := size == 0,
        tampon := if size < v.length then some (v.drop size) else none }
  | WritePoll.wErr =>
      { poll := StreamPoll.readyItem (Except.error ProcessError.mk),
        deleteStdin := true,
        tampon := none }
  | WritePoll.pending =>
      { poll := StreamPoll.pending, deleteStdin := false, tampon := some v }

/-- One step of `ProcessStream::poll_next` (src/src/process.rs lines
151-204), instrumented: `polledInput` records whether `input.poll_next` was
invoked and `wrote` the bytes passed to stdin's `poll_write` this step.  The
oracles `ip`/`w` are what those calls would return.  Note the source's
`poll_next` touches only the stdin side: when stdin is gone (or the input is
closed with an empty residual) it returns `Pending` without reading stdout
or stderr (`PSStatus::next_step` is never called). -/
structure PollNextOut where
  state : ProcessStream
  poll : StreamPoll
  polledInput : Bool
  wrote : Option ByteStr

def ProcessStream.poll_next (s : ProcessStream) (ip : InputPoll) (w : WritePoll) :
    PollNextOut :=
  if s.stdinOpen then
    match s.inputBuffer with
    | some v =>
        let r := push_to_stdin v w
        { state := { s with stdinOpen := !r.deleteStdin, inputBuffer := r.tampon },
          poll := r.poll, polledInput := false, wrote := some v }
    | none =>
        if s.inputClosed = false then
          match ip with
          | InputPoll.chunk v =>
              let r := push_to_stdin v w
              { state := { s with stdinOpen := !r.deleteStdin, inputBuffer := r.tampon },
                poll := r.poll, polledInput := true, wrote := some v }
          | InputPoll.inErr =>
              { state := { s with inputClosed := true },
                poll := StreamPoll.readyItem (Except.error ProcessError.mk),
                polledInput := true, wrote := none }
          | InputPoll.pending =>
              { state := s, poll := StreamPoll.pending, polledInput := true, wrote := none }
          | InputPoll.ended =>
              { state := { s with inputClosed := true, stdinOpen := false },
                poll := StreamPoll.pending, polledInput := true, wrote := none }
        else { state := s, poll := StreamPoll.pending, polledInput := false, wrote := none }
  else { state := s, poll := StreamPoll.pending, polledInput := false, wrote := none }

/-- The `PSStatus` snapshot struct (src/src/process.rs lines 27-33), reduced
to handle presence (buffer and flag fields carry no role in
`next_step`/`next_stderr`). -/
structure PSStatus where
  stdinOpen : Bool
  stdoutOpen : Bool
  stderrOpen : Bool
deriving DecidableEq

/-- One poll result of `poll_read` on a child pipe: `ok b` is a successful
read that filled `b` (empty means EOF), plus error and pending. -/
inductive ReadPoll
  | ok (b : ByteStr)
  | rErr
  | pending
deriving DecidableEq

/-- Outcome of a `next_step`/`next_stderr` call; `panicked` marks the
`todo!()` arms the draft leaves unimplemented. -/
inductive NextOut
  | item (r : Except ProcessError Output)
  | ended
  | pending
  | panicked

/-- Embedding of `PSStatus::next_stderr` (src/src/process.rs lines 106-142)
with the stderr read result as oracle.  NOTE (faithful to the source): a
non-empty stderr read is wrapped in `Output::Stdout` (line 117), not
`Output::Stderr`; a zero-length read drops stderr and, when stdout is
already gone, drops stdin and ends the stream; the remaining arms are
`todo!()` panics. -/
def PSStatus.next_stderr (s : PSStatus) (r : ReadPoll) : PSStatus × NextOut :=
  if s.stderrOpen then
    match r with
    | ReadPoll.ok b =>
        if b.length ≠ 0 then (s, NextOut.item (Except.ok (Output.stdout b)))
        else
          let s1 := { s with stderrOpen := false }
          if s1.stdoutOpen = false then
            ({ s1 with stdinOpen := false }, NextOut.ended)
          else (s1, NextOut.panicked)
    | ReadPoll.rErr => (s, NextOut.item (Except.error ProcessError.mk))
    | ReadPoll.pending => (s, NextOut.panicked)
  else
    if s.stdoutOpen = false then ({ s with stdinOpen := false }, NextOut.ended)
    else (s, NextOut.panicked)

/-- Embedding of `PSStatus::next_step` (src/src/process.rs lines 80-104):
read stdout first; a non-empty read is a stdout chunk; a zero-length read
closes stdout and falls through to `next_stderr`, as do a pending stdout and
an absent stdout handle. -/
def PSStatus.next_step (s : PSStatus) (rOut rErrRead : ReadPoll) : PSStatus × NextOut :=
  if s.stdoutOpen then
    match rOut with
    | ReadPoll.ok b =>
        if b.length ≠ 0 then (s, NextOut.item (Except.ok (Output.stdout b)))
        else PSStatus.next_stderr { s with stdoutOpen := false } rErrRead
    | ReadPoll.rErr => (s, NextOut.item (Except.error ProcessError.mk))
    | ReadPoll.pending => PSStatus.next_stderr s rErrRead
  else PSStatus.next_stderr s rErrRead

/-- C4: at every step of the process stream, whenever a residual input
buffer is held the request-body source is not polled and the residual bytes
are exactly what is re-sent to stdin (when stdin is still open); conversely
a step polls the source only when no residual is held. -/
theorem claim_C4_residual_before_source (s : ProcessStream) (ip : InputPoll) (w : WritePoll) :
    (∀ v, s.inputBuffer = some v →
        (s.poll_next ip w).polledInput = false
        ∧ (s.stdinOpen = true → (s.poll_next ip w).wrote = some v))
    ∧ ((s.poll_next ip w).polledInput = true → s.inputBuffer = none) := by
  constructor
  · intro v hv
    constructor
    · unfold ProcessStream.poll_next
      by_cases hs : s.stdinOpen = true
      · simp [hs, hv]
      · simp [hs]
    · intro hso
      unfold ProcessStream.poll_next
      simp [hso, hv]
  · intro hp
    by_cases hs : s.stdinOpen = true
    · cases hb : s.inputBuffer with
      | none => rfl
      | some v =>
          unfold ProcessStream.poll_next at hp
          simp [hs, hb] at hp
    · unfold ProcessStream.poll_next at hp
      simp [hs] at hp

/-- Witness for C4: a stream holding residual [1,2,3] writes exactly those
bytes and does not poll the source, whatever the source would answer. -/
theorem claim_C4_witness :
    ((⟨true, true, true, some [1, 2, 3], false, 1024⟩ : ProcessStream).poll_next
        (InputPoll.chunk [9, 9]) (WritePoll.accepted 1)).polledInput = false
    ∧ ((⟨true, true, true, some [1, 2, 3], false, 1024⟩ : ProcessStream).poll_next
        (InputPoll.chunk [9, 9]) (WritePoll.accepted 1)).wrote = some [1, 2, 3] := by
  have h := claim_C4_residual_before_source ⟨true, true, true, some [1, 2, 3], false, 1024⟩
    (InputPoll.chunk [9, 9]) (WritePoll.accepted 1)
  exact ⟨(h.1 [1, 2, 3] rfl).1, (h.1 [1, 2, 3] rfl).2 rfl⟩

/-- C5 (evaluation at the failing input): with stdout producing no data
(pending) and stderr open, a 1-byte stderr read is emitted wrapped in
`Output.stdout` — the draft mis-tags stderr data as a stdout chunk
(src/src/process.rs line 117; the `Output::Stderr` constructor is never
built anywhere) — while the zero-length-read clause of the claim does hold:
stderr is marked closed and, stdout being closed too, the stream ends. -/
theorem claim_C5_stderr_mistagged :
    PSStatus.next_step ⟨true, true, true⟩ ReadPoll.pending (ReadPoll.ok [65]) =
      (⟨true, true, true⟩, NextOut.item (Except.ok (Output.stdout [65])))
    ∧ PSStatus.next_stderr ⟨true, false, true⟩ (ReadPoll.ok []) =
      (⟨false, false, false⟩, NextOut.ended) := ⟨rfl, rfl⟩

/-- C10: `ProcessStream::new` panics (modelled `none`) exactly when one of
the child's stdin, stdout or stderr handles is absent; when all three are
piped it returns a stream whose residual buffer is empty, whose input is not
marked closed, whose three handles are open and whose buffer size is the one
given. -/
theorem claim_C10_new_panics_iff (child : Child) (obs : Nat) :
    ((ProcessStream.new child obs).isNone
      ↔ (child.stdinH = none ∨ child.stdoutH = none ∨ child.stderrH = none))
    ∧ (∀ s, ProcessStream.new child obs = some s →
        s.inputBuffer = none ∧ s.inputClosed = false
        ∧ s.stdinOpen = true ∧ s.stdoutOpen = true ∧ s.stderrOpen = true
        ∧ s.outputBufferSize = obs) := by
  obtain ⟨si, so, se⟩ := child
  constructor
  · cases si <;> cases so <;> cases se <;> simp [ProcessStream.new]
  · intro s hs
    cases si <;> cases so <;> cases se <;> simp [ProcessStream.new] at hs
    subst hs
    exact ⟨rfl, rfl, rfl, rfl, rfl, rfl⟩

/-- Witness for C10: a child with stdout not piped panics; a fully piped
child yields the expected initial stream state. -/
theorem claim_C10_witness :
    ProcessStream.new ⟨some (), none, some ()⟩ 1024 = none
    ∧ (∃ s, ProcessStream.new (⟨some (), some (), some ()⟩ : Child) 1024 = some s
        ∧ s.inputBuffer = none ∧ s.inputClosed = false) := by
  constructor
  · have h := (claim_C10_new_panics_iff ⟨some (), none, some ()⟩ 1024).1.mpr
      (Or.inr (Or.inl rfl))
    exact Option.isNone_iff_eq_none.mp (by simpa using h)
  · refine ⟨_, rfl, ?_, ?_⟩
    · exact ((claim_C10_new_panics_iff ⟨some (), some (), some ()⟩ 1024).2 _ rfl).1
    · exact ((claim_C10_new_panics_iff ⟨some (), some (), some ()⟩ 1024).2 _ rfl).2.1

/-- One poll result of a hyper `Body` (`Poll<Option<Result<Frame, E>>>`);
`α` stands for the frame-or-error item. -/
inductive FramePoll (α : Type)
  | ready (x : Option α)
  | pending
deriving DecidableEq

/-- The counting pool (`tokio::sync::Semaphore`): its available permits. -/
structure SemState where
  avail : Nat
deriving DecidableEq

/-- Dropping an `OwnedSemaphorePermit` returns it to the pool. -/
def releaseSem (sem : SemState) : SemState := ⟨sem.avail + 1⟩

/-- `Semaphore::acquire_owned` / `PollSemaphore::poll_acquire`: when a
permit is available, take it (the handler otherwise stays parked). -/
def acquireSem (sem : SemState) : Option (Unit × SemState) :=
  if sem.avail = 0 then none else some ((), ⟨sem.avail - 1⟩)

/-- `PermittedBody` (src/src/limit.rs lines 17-31): the optional owned
permit plus the inner body, the latter modelled as the script of its
successive poll results (polling consumes the head; an exhausted script
keeps answering end-of-stream). -/
structure PermittedBody (α : Type) where
  permit : Option Unit
  inner : List (FramePoll α)

def innerPoll {α : Type} : List (FramePoll α) → FramePoll α × List (FramePoll α)
  | [] => (FramePoll.ready none, [])
  | r :: rest => (r, rest)

/-- Result of one `PermittedBody::poll_frame` step: the poll returned, the
new body state, the pool (a permit dropped inside the step is released into
it) and whether the inner body was polled. -/
structure PollFrameOut (α : Type) where
  result : FramePoll α
  body : PermittedBody α
  sem : SemState
  polledInner : Bool

/-- Embedding of `PermittedBody::poll_frame` (src/src/limit.rs lines 38-52):
take the permit; without one, answer end-of-stream without touching the
inner body; with one, poll the inner body — on `Ready(None)` return it
WITHOUT restoring the permit (the moved-out permit binding is dropped at the
end of the match arm, releasing it to the pool at that very step), otherwise
restore the permit and forward the poll. -/
def PermittedBody.pollFrame {α : Type} (pb : PermittedBody α) (sem : SemState) :
    PollFrameOut α :=
  match pb.permit with
  | some _ =>
      match innerPoll pb.inner with
      | (FramePoll.ready none, rest) =>
          { result := FramePoll.ready none, body := { permit := none, inner := rest },
            sem := releaseSem sem, polledInner := true }
      | (r, rest) =>
          { result := r, body := { permit := some (), inner := rest },
            sem := sem, polledInner := true }
  | none =>
      { result := FramePoll.ready none, body := pb, sem := sem, polledInner := false }

/-- Dropping a `PermittedBody`: the permit field, when still held, is
dropped with it and thus released; the pool is untouched otherwise. -/
def PermittedBody.dropBody {α : Type} (pb : PermittedBody α) (sem : SemState) : SemState :=
  match pb.permit with
  | some _ => releaseSem sem
  | none => sem

/-- The scripted outcome of the wrapped handler future. -/
inductive FutPoll (α ε : Type)
  | ready (r : Except ε (List (FramePoll α)))
  | pending

/-- `HttpConcurrencyLimitFut` (src/src/limit.rs lines 123-128): the handler
future plus the permit taken in `call`. -/
structure LimitFut (α ε : Type) where
  future : FutPoll α ε
  permit : Option Unit

inductive LimitFutOut (α ε : Type)
  | ok (body : PermittedBody α)
  | err (e : ε)
  | pending
  | unreachablePanic

/-- Embedding of `HttpConcurrencyLimitFut::poll` (src/src/limit.rs lines
130-146): on `Ready(Ok(resp))` take the permit (its absence is the
`unreachable!` of a second poll) and wrap the response body as
`PermittedBody::new(permit, body)` — the permit moves into the body and
nothing is released; errors and pending pass through with the permit kept
inside the future. -/
def LimitFut.poll {α ε : Type} (f : LimitFut α ε) : LimitFutOut α ε × LimitFut α ε :=
  match f.future with
  | FutPoll.ready (Except.ok bodyScript) =>
      match f.permit with
      | some p => (LimitFutOut.ok { permit := some p, inner := bodyScript },
                   { future := f.future, permit := none })
      | none => (LimitFutOut.unreachablePanic, f)
  | FutPoll.ready (Except.error e) => (LimitFutOut.err e, f)
  | FutPoll.pending => (LimitFutOut.pending, f)

/-- `k` successive frame polls of a permitted body against the pool. -/
def runPolls {α : Type} : Nat → PermittedBody α → SemState → PermittedBody α × SemState
  | 0, pb, sem => (pb, sem)
  | k + 1, pb, sem =>
      let o := pb.pollFrame sem
      runPolls k o.body o.sem

/-- The lifecycle of one admitted request on a pool of capacity `n`:
acquire a permit, complete the handler (whose response body polls as the
script `bodyScript`), poll the response body `k` times, then drop it.
Returns the available count at the end. -/
def lifecycle {α : Type} (n k : Nat) (bodyScript : List (FramePoll α)) : Option Nat :=
  match acquireSem ⟨n⟩ with
  | none => none
  | some (p, sem1) =>
      match LimitFut.poll ({ future := FutPoll.ready (Except.ok bodyScript), permit := some p }
          : LimitFut α Unit) with
      | (LimitFutOut.ok pb, _) =>
          let r := runPolls k pb sem1
          some ((r.1.dropBody r.2).avail)
      | _ => none

/-- Permits held by this body (0 or 1). -/
def heldCount {α : Type} (pb : PermittedBody α) : Nat :=
  match pb.permit with
  | some _ => 1
  | none => 0

theorem pollFrame_conserves {α : Type} (pb : PermittedBody α) (sem : SemState) :
    heldCount (pb.pollFrame sem).body + (pb.pollFrame sem).sem.avail
      = heldCount pb + sem.avail := by
  unfold PermittedBody.pollFrame
  cases hp : pb.permit with
  | none => simp [heldCount, hp]
  | some p =>
      cases hi : innerPoll pb.inner with
      | mk r rest =>
          cases r with
          | ready x =>
              cases x with
              | none =>
                  simp [heldCount, hp, hi, releaseSem]
                  try omega
              | some v => simp [heldCount, hp, hi]
          | pending => simp [heldCount, hp, hi]

/-- Through any number of polls: either the body still holds its one permit
with the pool at the post-admission level `a`, or the permit has been
released and the pool stands at `a + 1`. -/
theorem runPolls_dichotomy {α : Type} (a : Nat) :
    ∀ (k : Nat) (pb : PermittedBody α) (sem : SemState),
    (pb.permit = some () ∧ sem.avail = a) ∨ (pb.permit = none ∧ sem.avail = a + 1) →
    ((runPolls k pb sem).1.permit = some () ∧ (runPolls k pb sem).2.avail = a)
    ∨ ((runPolls k pb sem).1.permit = none ∧ (runPolls k pb sem).2.avail = a + 1) := by
  intro k
  induction k with
  | zero => intro pb sem h; exact h
  | succ k ih =>
      intro pb sem h
      have hstep : ((pb.pollFrame sem).body.permit = some ()
            ∧ (pb.pollFrame sem).sem.avail = a)
          ∨ ((pb.pollFrame sem).body.permit = none
            ∧ (pb.pollFrame sem).sem.avail = a + 1) := by
        rcases h with ⟨hp, ha⟩ | ⟨hp, ha⟩
        · unfold PermittedBody.pollFrame
          rw [hp]
          cases hi : innerPoll pb.inner with
          | mk r rest =>
              cases r with
              | ready x =>
                  cases x with
                  | none => right; exact ⟨rfl, by simp [releaseSem, ha]⟩
                  | some v => left; exact ⟨rfl, ha⟩
              | pending => left; exact ⟨rfl, ha⟩
        · unfold PermittedBody.pollFrame
          rw [hp]
          right
          exact ⟨hp, ha⟩
      have hk := ih (pb.pollFrame sem).body (pb.pollFrame sem).sem hstep
      simpa [runPolls] using hk

/-- C9: `PermittedBody` behaves as a fused body: (a) with the permit gone,
every poll answers end-of-stream immediately, leaves the state unchanged and
does not poll the inner body; (b) the poll at which the inner body first
answers end-of-stream forwards it, drops the permit at that very step
(releasing it to the pool) and leaves the body in the permit-none state on
which (a) holds forever after; (c) on any other inner answer the permit is
retained and the poll forwarded. -/
theorem claim_C9_fused_body {α : Type} (pb : PermittedBody α) (sem : SemState) :
    (pb.permit = none →
        pb.pollFrame sem =
          { result := FramePoll.ready none, body := pb, sem := sem, polledInner := false })
    ∧ (∀ p rest, pb.permit = some p → innerPoll pb.inner = (FramePoll.ready none, rest) →
        pb.pollFrame sem =
          { result := FramePoll.ready none, body := { permit := none, inner := rest },
            sem := releaseSem sem, polledInner := true })
    ∧ (∀ p r rest, pb.permit = some p → innerPoll pb.inner = (r, rest) →
        r ≠ FramePoll.ready none →
        pb.pollFrame sem =
          { result := r, body := { permit := some (), inner := rest },
            sem := sem, polledInner := true }) := by
  refine ⟨?_, ?_, ?_⟩
  · intro h
    unfold PermittedBody.pollFrame
    rw [h]
  · intro p rest hp hi
    unfold PermittedBody.pollFrame
    rw [hp, hi]
  · intro p r rest hp hi hr
    unfold PermittedBody.pollFrame
    rw [hp, hi]
    cases r with
    | pending => rfl
    | ready x =>
        cases x with
        | none => exact absurd rfl hr
        | some a => rfl

/-- Witness for C9: the end-observing poll releases the permit into the pool
and fuses the body; a fused body answers end-of-stream without polling. -/
theorem claim_C9_witness :
    (⟨some (), [FramePoll.ready none]⟩ : PermittedBody Nat).pollFrame ⟨3⟩ =
      { result := FramePoll.ready none, body := { permit := none, inner := [] },
        sem := ⟨4⟩, polledInner := true }
    ∧ (⟨none, []⟩ : PermittedBody Nat).pollFrame ⟨4⟩ =
      { result := FramePoll.ready none, body := ⟨none, []⟩, sem := ⟨4⟩,
        polledInner := false } := by
  constructor
  · exact (claim_C9_fused_body ⟨some (), [FramePoll.ready none]⟩ ⟨3⟩).2.1 () [] rfl rfl
  · exact (claim_C9_fused_body ⟨none, []⟩ ⟨4⟩).1 rfl

/-- C1 (amended): (a) handler completion moves the permit into the response
body and releases nothing — `HttpConcurrencyLimitFut::poll` on `Ready(Ok _)`
yields a `PermittedBody` holding the permit with no semaphore interaction;
(b) at every point of the body's life, either it still holds the one permit
with the pool at n-1, or the permit has already been returned and the pool
is at n — exactly one permit is counted against the pool for the full
duration of the stream, until its single release; (c) over the whole
lifecycle — admission, handler completion, any number of body polls, then
dropping the body — exactly one permit returns to the pool (final available
count = n), the release happening at the end-of-stream-observing poll when
the body is drained and at drop otherwise. -/
theorem claim_C1_amended (α : Type) :
    (∀ (script : List (FramePoll α)),
        LimitFut.poll ({ future := FutPoll.ready (Except.ok script), permit := some () }
            : LimitFut α Unit) =
          (LimitFutOut.ok { permit := some (), inner := script },
           { future := FutPoll.ready (Except.ok script), permit := none }))
    ∧ (∀ (n k : Nat) (script : List (FramePoll α)), 0 < n →
        ((runPolls k ({ permit := some (), inner := script }) ⟨n - 1⟩).1.permit = some ()
            ∧ (runPolls k ({ permit := some (), inner := script } : PermittedBody α)
                ⟨n - 1⟩).2.avail = n - 1)
        ∨ ((runPolls k ({ permit := some (), inner := script }) ⟨n - 1⟩).1.permit = none
            ∧ (runPolls k ({ permit := some (), inner := script } : PermittedBody α)
                ⟨n - 1⟩).2.avail = n))
    ∧ (∀ (n k : Nat) (script : List (FramePoll α)), 0 < n →
        lifecycle n k script = some n) := by
  refine ⟨?_, ?_, ?_⟩
  · intro script; rfl
  · intro n k script hn
    have h := runPolls_dichotomy (n - 1) k
      ({ permit := some (), inner := script } : PermittedBody α) ⟨n - 1⟩
      (Or.inl ⟨rfl, rfl⟩)
    rcases h with ⟨h1, h2⟩ | ⟨h1, h2⟩
    · exact Or.inl ⟨h1, h2⟩
    · refine Or.inr ⟨h1, ?_⟩
      rw [h2]
      omega
  · intro n k script hn
    unfold lifecycle acquireSem LimitFut.poll
    rw [if_neg (show ¬((⟨n⟩ : SemState).avail = 0) from by simp; omega)]
    dsimp only
    have h := runPolls_dichotomy (n - 1) k
      ({ permit := some (), inner := script } : PermittedBody α) ⟨n - 1⟩
      (Or.inl ⟨rfl, rfl⟩)
    unfold PermittedBody.dropBody
    rcases h with ⟨h1, h2⟩ | ⟨h1, h2⟩
    · rw [h1]
      simp only [releaseSem]
      rw [h2]
      have hnn : n - 1 + 1 = n := by omega
      rw [hnn]
    · rw [h1]
      rw [h2]
      have hnn : n - 1 + 1 = n := by omega
      rw [hnn]

/-- C1 counterexample: a response body whose first poll observes
end-of-stream, fully drained on a pool of capacity 1: the permit returns to
the pool at that poll (available back to 1), and the subsequent drop of the
body releases nothing more — the pool is unchanged by the drop — so
"dropping the response body (whether fully drained or aborted) releases
exactly one permit" fails as stated for the drained case. -/
theorem claim_C1_counterexample :
    (runPolls 1 ({ permit := some (), inner := [FramePoll.ready none] }
        : PermittedBody Nat) ⟨0⟩).1.permit = none
    ∧ (runPolls 1 ({ permit := some (), inner := [FramePoll.ready none] }
        : PermittedBody Nat) ⟨0⟩).2.avail = 1
    ∧ ((runPolls 1 ({ permit := some (), inner := [FramePoll.ready none] }
          : PermittedBody Nat) ⟨0⟩).1.dropBody
        (runPolls 1 ({ permit := some (), inner := [FramePoll.ready none] }
          : PermittedBody Nat) ⟨0⟩).2).avail
      = (runPolls 1 ({ permit := some (), inner := [FramePoll.ready none] }
          : PermittedBody Nat) ⟨0⟩).2.avail := ⟨rfl, rfl, rfl⟩

/-- Witness for C1 (amended): a capacity-4 pool, a body with one data frame
then end-of-stream, three polls: the lifecycle ends with all 4 permits
available. -/
theorem claim_C1_witness :
    lifecycle 4 3 ([FramePoll.ready (some 7), FramePoll.ready none]
      : List (FramePoll Nat)) = some 4 :=
  (claim_C1_amended Nat).2.2 4 3 _ (by omega)
